import Mathlib

/-!
# Verification of the hierarchical-chunking / adaptive-retrieval engine

Shallow embedding of the RAG services of the `knowledge_base_chatbot` repository
(`src/services/pdfService.ts` — `ModernRagService`, `src/services/financeRagService.ts`
— `FinanceRAGService`, `src/services/supabaseService.ts` — `storeChunks`), together
with theorems settling the spec claims about them.

Conventions of the embedding:

* JS `number` values that stay exact at the inputs considered (similarity scores,
  thresholds, parsed financial figures, confidences) are modelled as `ℚ`.
  `Math.sqrt`, the only irrational operation in the embedded code, is passed in
  as an explicit function argument `msqrt : ℚ → ℚ`.
* JS strings are Lean `String`s; all character-level work is done on `List Char`
  (Lean strings are exactly lists of characters) so that concrete runs reduce.
* `uuidv4()` is modelled as a fresh-id supply: a `Nat` counter threaded through
  chunk creation.  The only property of uuids the code relies on is freshness.
* External collaborators (langchain text splitters, the OpenAI embedding calls,
  the Supabase table inserts and RPC search) are parameters or injected outcomes
  (`Except`/`Bool`), matching their interface boundary in the spec.
-/

set_option autoImplicit false

namespace KBChatbot

/-! ## Character classes mirroring the JavaScript regex classes used in the source -/

/-- The ASCII part of the JS regex class `\s` (the documents handled are ASCII). -/
def jsWhitespace (c : Char) : Bool :=
  c = ' ' || c = '\t' || c = '\n' || c = '\r' || c.toNat = 11 || c.toNat = 12

/-- The JS regex class `\d`. -/
def digitChar (c : Char) : Bool := '0' ≤ c && c ≤ '9'

/-- The JS regex class `[A-Z]`. -/
def upperChar (c : Char) : Bool := 'A' ≤ c && c ≤ 'Z'

/-- The JS regex class `[a-z]`. -/
def lowerChar (c : Char) : Bool := 'a' ≤ c && c ≤ 'z'

/-- JS `String.prototype.toLowerCase` on one character (ASCII range, which is
also exactly the case-folding the `/i` regexes of the source rely on). -/
def jsToLowerChar (c : Char) : Char :=
  if upperChar c then Char.ofNat (c.toNat + 32) else c

/-- JS `String.prototype.toLowerCase` (ASCII inputs). -/
def jsToLower (s : String) : String := String.mk (s.toList.map jsToLowerChar)

/-- JS `String.prototype.trim` on a character list. -/
def jsTrimList (cs : List Char) : List Char :=
  ((cs.dropWhile jsWhitespace).reverse.dropWhile jsWhitespace).reverse

/-- JS `String.prototype.trim`. -/
def jsTrim (s : String) : String := String.mk (jsTrimList s.toList)

/-- JS `content.split(c)` for a single separator character. -/
def jsSplitOnChar (sep : Char) (cs : List Char) : List (List Char) :=
  match cs with
  | [] => [[]]
  | c :: rest =>
    let tail := jsSplitOnChar sep rest
    if c = sep then [] :: tail
    else match tail with
      | [] => [[c]]
      | t :: ts => (c :: t) :: ts

/-- JS `content.split('\n')` on a string, keeping pieces as strings. -/
def jsLines (s : String) : List String :=
  (jsSplitOnChar '\n' s.toList).map String.mk

/-- Substring test (used for the JS `/kw1|kw2|…/i.test(line)` keyword regexes and
`String.prototype.includes`): some tail of `cs` starts with `pat`. -/
def containsSeq (pat : List Char) (cs : List Char) : Bool :=
  cs.tails.any (fun t => pat.isPrefixOf t)

/-! ## A tiny backtracking regex-fragment matcher

The financial regexes of the source are sequences of literals, greedy character
classes (`+`/`*`), optional groups and ordered alternations.  `Pat α` is a
parser over `List Char` returning **all** parses in JS backtracking order
(greedy classes longest-first, optional groups match-first, alternations in
written order).  Since every embedded pattern ends where the regex ends, the JS
match of an anchored pattern is exactly the head of the parse list, and the
unanchored (leftmost) match is the head of the parse list at the first position
where it is non-empty. -/

def Pat (α : Type) : Type := List Char → List (α × List Char)

def purePat {α : Type} (a : α) : Pat α := fun cs => [(a, cs)]

def bindPat {α β : Type} (p : Pat α) (f : α → Pat β) : Pat β :=
  fun cs => (p cs).flatMap (fun ar => f ar.1 ar.2)

def mapPat {α β : Type} (f : α → β) (p : Pat α) : Pat β :=
  fun cs => (p cs).map (fun ar => (f ar.1, ar.2))

/-- A literal, e.g. the keyword or a `\$`. -/
def litPat (s : String) : Pat Unit :=
  fun cs => if s.toList.isPrefixOf cs then [((), cs.drop s.toList.length)] else []

/-- Greedy `class*`: all splits of the maximal run, longest consumed first. -/
def manyPat (p : Char → Bool) : Pat (List Char) :=
  fun cs =>
    let run := cs.takeWhile p
    (List.range (run.length + 1)).map
      (fun k => (run.take (run.length - k), cs.drop (run.length - k)))

/-- Greedy `class+`: like `manyPat` but at least one character. -/
def many1Pat (p : Char → Bool) : Pat (List Char) :=
  fun cs =>
    let run := cs.takeWhile p
    (List.range run.length).map
      (fun k => (run.take (run.length - k), cs.drop (run.length - k)))

/-- `(…)?`: the group first (JS greedy option), then the empty skip. -/
def optPat {α : Type} (p : Pat α) : Pat (Option α) :=
  fun cs => (p cs).map (fun ar => (some ar.1, ar.2)) ++ [(none, cs)]

/-- Ordered alternation `(a|b|…)`. -/
def altPat {α : Type} (ps : List (Pat α)) : Pat α :=
  fun cs => ps.flatMap (fun p => p cs)

/-- Leftmost-match search: run the anchored pattern at each position, left to
right, and return the captures of the first successful match. -/
def firstMatch {α : Type} (p : Pat α) : List Char → Option α
  | [] => match p [] with
    | [] => none
    | ar :: _ => some ar.1
  | cs@(_ :: rest) => match p cs with
    | ar :: _ => some ar.1
    | [] => firstMatch p rest

/-! ## JS truthiness helpers for optional strings -/

/-- JS truthiness of an optional string field (`undefined` and `''` are falsy). -/
def strTruthy : Option String → Bool
  | none => false
  | some s => !(s = "")

/-- JS `x || fallback` for an optional string. -/
def jsOrStr (o : Option String) (fallback : String) : String :=
  match o with
  | some s => if s = "" then fallback else s
  | none => fallback

/-- JS `Array.prototype.join(sep)`. -/
def jsJoin (sep : String) : List String → String
  | [] => ""
  | [s] => s
  | s :: rest@(_ :: _) => s ++ sep ++ jsJoin sep rest

namespace ModernRag

/-! ## `src/services/pdfService.ts` — `ModernRagService` -/

/-- The `docMeta` argument of the modern query rewriter
(`{ company?: string; period?: string; documentId?: string }`). -/
structure DocProfileMeta where
  company : Option String := none
  period : Option String := none
  documentId : Option String := none
  deriving DecidableEq

/-- `rewriteQueryForEmbedding` (pdfService.ts lines 121-133): prepend a framing
clause; short non-empty queries additionally get the wording `answer this: `. -/
def rewriteQueryForEmbedding (query : String) (docMeta : Option DocProfileMeta) : String :=
  let company := docMeta.bind (fun m => m.company)
  let period := docMeta.bind (fun m => m.period)
  let docId := docMeta.bind (fun m => m.documentId)
  let base :=
    if strTruthy company && strTruthy period then
      "About " ++ company.getD "" ++ " " ++ period.getD "" ++ " filing (doc id: " ++
        jsOrStr docId "unknown" ++ "), "
    else if strTruthy company then
      "About " ++ company.getD "" ++ " (doc id: " ++ jsOrStr docId "unknown" ++ "), "
    else
      "Regarding the uploaded financial documents, "
  if query.length < 20 && query.length > 0 then
    base ++ "answer this: " ++ query
  else
    base ++ query

end ModernRag

namespace FinanceRag

/-! ## `src/services/financeRagService.ts` — module-level helpers -/

/-- `rewriteQueryForEmbedding` (financeRagService.ts lines 130-143): only short
non-empty queries are rewritten; queries of length ≥ 20 are returned unchanged. -/
def rewriteQueryForEmbedding (query : String) : String :=
  if query.length < 20 && query.length > 0 then
    let questionKeywords : List String :=
      ["what", "who", "when", "where", "why", "how", "is", "are", "do", "does",
       "can", "could", "summarize"]
    let isQuestion :=
      questionKeywords.any (fun kw => kw.toList.isPrefixOf (jsToLower query).toList) ||
        ("?".toList.isSuffixOf query.toList)
    if isQuestion then
      "Regarding the uploaded financial documents (like earnings call transcripts or 10-K filings), answer this question: " ++ query
    else
      "Regarding the uploaded financial documents (like earnings call transcripts or 10-K filings), provide information about: " ++ query
  else
    query

/-- The similarity-threshold forwarding of `searchFinancialDocuments`
(financeRagService.ts line 294): the strictness handed to
`modernRagService.search` is `Math.min(similarityThreshold, 0.05)` when the
caller supplied one and `0.05` otherwise — always defined. -/
def forwardedSimilarityThreshold (similarityThreshold : Option ℚ) : Option ℚ :=
  some (match similarityThreshold with
    | some s => min s (0.05 : ℚ)
    | none => (0.05 : ℚ))

end FinanceRag

namespace ModernRag

/-! ## The adaptive retrieval filter (`ModernRagService.search`) -/

/-- One scored record returned by `supabaseService.searchChunks`; the adaptive
filter consults only `similarity`, the id tags along to show whole records are
kept or dropped. -/
structure SupabaseResult where
  chunkId : String
  similarity : ℚ
  deriving DecidableEq

/-- Stage 1, the relative cutoff (pdfService.ts lines 548-553): `best` is the
similarity of the first (top) candidate and every candidate with
`similarity >= best * 0.5` is kept.  The empty case never arises in `search`
(it returns beforehand) and is mapped to the empty list. -/
def relativeCutoff (results : List SupabaseResult) : List SupabaseResult :=
  match results with
  | [] => []
  | best :: _ =>
    results.filter (fun r => decide (best.similarity * (0.5 : ℚ) ≤ r.similarity))

/-- Stage 2, the statistical cutoff (pdfService.ts lines 556-583).
`msqrt` models `Math.sqrt`; `beta` models `finalSimilarityThreshold`, which is
`undefined` exactly when the caller did not pass `similarityThreshold`. -/
def statisticalFilter (msqrt : ℚ → ℚ) :
    Option ℚ → List SupabaseResult → List SupabaseResult
  | none, results => results
  | some b, results =>
    if 0 < results.length then
      let sims := results.map (fun r => r.similarity)
      let mean := sims.sum / (sims.length : ℚ)
      let stdev :=
        if 1 < sims.length then
          msqrt ((sims.map (fun s => (s - mean) ^ 2)).sum / ((sims.length : ℚ) - 1))
        else 0
      results.filter (fun r => decide (mean + b * stdev ≤ r.similarity))
    else results

/-- Descending sort by similarity (pdfService.ts line 540,
`supabaseResults.sort((a, b) => b.similarity - a.similarity)`; JS sorts are
stable, like `mergeSort`). -/
def sortBySimilarityDesc (results : List SupabaseResult) : List SupabaseResult :=
  results.mergeSort (fun a b => decide (b.similarity ≤ a.similarity))

/-! ## Structure detection (`detectDocumentStructure`, pdfService.ts lines 244-321) -/

/-- Anchored matcher for the JS alternative `[A-Z][a-z]+ [A-Z][a-z]+` followed
by `:` (the `FirstLast:` speaker shape); returns the name when it matches at
the head of `cs`.  Greedy lowercase runs cannot backtrack usefully here because
the follow-set (space, colon) is disjoint from `[a-z]`. -/
def speakerAlt1 (cs : List Char) : Option String :=
  match cs with
  | [] => none
  | c0 :: rest =>
    if upperChar c0 then
      let r1 := rest.takeWhile lowerChar
      if r1.isEmpty then none
      else
        match rest.drop r1.length with
        | ' ' :: c2 :: rest2 =>
          if upperChar c2 then
            let r2 := rest2.takeWhile lowerChar
            if r2.isEmpty then none
            else
              match rest2.drop r2.length with
              | ':' :: _ => some (String.mk (c0 :: r1 ++ ' ' :: c2 :: r2))
              | _ => none
          else none
        | _ => none
    else none

/-- The speaker regex `^([A-Z][a-z]+ [A-Z][a-z]+|Operator|Analyst):\s*`
(pdfService.ts line 263), returning the captured speaker.  The alternatives
are mutually exclusive, so JS alternation order does not matter. -/
def speakerMatch (line : String) : Option String :=
  match speakerAlt1 line.toList with
  | some s => some s
  | none =>
    if ("Operator:".toList).isPrefixOf line.toList then some "Operator"
    else if ("Analyst:".toList).isPrefixOf line.toList then some "Analyst"
    else none

/-- Anchored `\$[\d,]+`. -/
def numPatDollar : List Char → Bool
  | '$' :: c :: _ => digitChar c || c = ','
  | _ => false

/-- Anchored `\d+\.\d+%`. -/
def numPatPercent (cs : List Char) : Bool :=
  let d1 := cs.takeWhile digitChar
  if d1.isEmpty then false
  else
    match cs.drop d1.length with
    | '.' :: rest2 =>
      let d2 := rest2.takeWhile digitChar
      if d2.isEmpty then false
      else
        match rest2.drop d2.length with
        | '%' :: _ => true
        | _ => false
    | _ => false

/-- Anchored `\d+\s*(million|billion|thousand)` (on lowercased input). -/
def numPatUnit (cs : List Char) : Bool :=
  let d := cs.takeWhile digitChar
  if d.isEmpty then false
  else
    let rest := (cs.drop d.length).dropWhile jsWhitespace
    ("million".toList).isPrefixOf rest || ("billion".toList).isPrefixOf rest ||
      ("thousand".toList).isPrefixOf rest

/-- `isFinancialMetricsLine` (pdfService.ts lines 326-330): a financial keyword
and a number-with-unit pattern, both case-insensitive. -/
def isFinancialMetricsLine (line : String) : Bool :=
  let lower := (jsToLower line).toList
  let hasFinancialTerms :=
    ["revenue", "earnings", "profit", "loss", "margin", "ratio", "eps",
     "ebitda", "cash flow"].any (fun kw => containsSeq kw.toList lower)
  let hasNumbers :=
    lower.tails.any (fun t => numPatDollar t || numPatPercent t || numPatUnit t)
  hasFinancialTerms && hasNumbers

/-- `isTableLine` (pdfService.ts lines 335-337). -/
def isTableLine (line : String) : Bool :=
  line.toList.contains '|' && 2 < (jsSplitOnChar '|' line.toList).length

/-- The content-type tags of `detectDocumentStructure`. -/
inductive SectionType where
  | transcript
  | financialMetrics
  | narrative
  | table
  deriving DecidableEq

/-- One detected span of the document. -/
structure DocSection where
  type : SectionType
  content : String
  speaker : Option String := none
  startLine : Nat
  deriving DecidableEq

/-- The line loop of `detectDocumentStructure` (pdfService.ts lines 258-313):
`i` is the line index, `sections` the flushed spans, `current` the span being
accumulated. -/
def detectLoop : List String → Nat → List DocSection → DocSection → List DocSection
  | [], _, sections, current =>
    if jsTrim current.content ≠ "" then sections ++ [current] else sections
  | l :: rest, i, sections, current =>
    let line := jsTrim l
    if line = "" then detectLoop rest (i + 1) sections current
    else
      match speakerMatch line with
      | some sp =>
        let sections' :=
          if jsTrim current.content ≠ "" then sections ++ [current] else sections
        detectLoop rest (i + 1) sections'
          { type := .transcript, content := line, speaker := some sp, startLine := i }
      | none =>
        if isFinancialMetricsLine line then
          if current.type ≠ .financialMetrics then
            let sections' :=
              if jsTrim current.content ≠ "" then sections ++ [current] else sections
            detectLoop rest (i + 1) sections'
              { type := .financialMetrics, content := line, startLine := i }
          else
            detectLoop rest (i + 1) sections
              { current with content := current.content ++ "\n" ++ line }
        else if isTableLine line then
          if current.type ≠ .table then
            let sections' :=
              if jsTrim current.content ≠ "" then sections ++ [current] else sections
            detectLoop rest (i + 1) sections'
              { type := .table, content := line, startLine := i }
          else
            detectLoop rest (i + 1) sections
              { current with content := current.content ++ "\n" ++ line }
        else
          detectLoop rest (i + 1) sections
            { current with content := current.content ++ "\n" ++ line }

/-- `detectDocumentStructure` (pdfService.ts lines 244-321). -/
def detectDocumentStructure (content : String) : List DocSection :=
  detectLoop (jsLines content) 0 []
    { type := .narrative, content := "", startLine := 0 }

/-! ## Section titles and confidence (pdfService.ts lines 405-459) -/

/-- The markdown-header regex `^#{1,6}\s+(.+)$` on a single line, returning the
captured title.  Greedy `\s+` backtracks one step only when the line ends in
whitespace (then `.+` takes the final whitespace character). -/
def headerMatch (l : String) : Option String :=
  let cs := l.toList
  let hashes := cs.takeWhile (fun c => c = '#')
  let r := hashes.length
  if 1 ≤ r && r ≤ 6 then
    let rest := cs.drop r
    let ws := rest.takeWhile jsWhitespace
    let rem := rest.drop ws.length
    if ws.isEmpty then none
    else if !rem.isEmpty then some (String.mk rem)
    else if 2 ≤ ws.length then some (String.mk (ws.drop (ws.length - 1)))
    else none
  else none

/-- The title speaker regex `^([A-Z][a-z]+ [A-Z][a-z]+|Operator):`
(pdfService.ts line 414 — note: no `Analyst` alternative here). -/
def titleSpeakerMatch (l : String) : Option String :=
  match speakerAlt1 l.toList with
  | some s => some s
  | none =>
    if ("Operator:".toList).isPrefixOf l.toList then some "Operator" else none

/-- `extractSectionTitle` (pdfService.ts lines 405-420). -/
def extractSectionTitle (content : String) : String :=
  let lines := (jsLines content).filter (fun l => jsTrim l ≠ "")
  match lines with
  | [] => "Unknown Section"
  | l0 :: _ =>
    match headerMatch l0 with
    | some h => h
    | none =>
      match titleSpeakerMatch l0 with
      | some sp => sp ++ " Statement"
      | none =>
        let firstSentence := String.mk ((jsSplitOnChar '.' l0.toList).headD [])
        if 50 < firstSentence.length then
          String.mk (firstSentence.toList.take 50) ++ "..."
        else firstSentence

/-- `calculateContentConfidence` (pdfService.ts lines 425-459). -/
def calculateContentConfidence (content : String) (type : SectionType) : ℚ :=
  let cs := content.toList
  let lower := (jsToLower content).toList
  let base : ℚ := 0.5
  let typeBoost : ℚ :=
    match type with
    | .transcript =>
      (if cs.contains ':' && cs.tails.any (fun t => (speakerAlt1 t).isSome)
       then (0.3 : ℚ) else 0) +
      (if ["question", "answer", "thank you", "next question"].any
            (fun kw => containsSeq kw.toList lower)
       then (0.1 : ℚ) else 0)
    | .financialMetrics =>
      (if cs.tails.any (fun t => numPatDollar t || numPatPercent t)
       then (0.3 : ℚ) else 0) +
      (if ["revenue", "earnings", "profit", "margin"].any
            (fun kw => containsSeq kw.toList lower)
       then (0.1 : ℚ) else 0)
    | .table =>
      if cs.contains '|' && 3 < (jsSplitOnChar '|' cs).length then (0.3 : ℚ) else 0
    | .narrative => 0
  let lengthBoost : ℚ :=
    (if 200 < cs.length then (0.1 : ℚ) else 0) +
      (if 500 < cs.length then (0.1 : ℚ) else 0)
  min (base + typeBoost + lengthBoost) 1

/-! ## Hierarchical chunk creation (`createHierarchicalChunks`, pdfService.ts
lines 342-400).  The langchain `RecursiveCharacterTextSplitter`s are external
collaborators and enter as function parameters `parentSplit`/`childSplit`;
`uuidv4()` is a fresh `Nat` from the threaded counter. -/

inductive ChunkLevel where
  | parent
  | child
  deriving DecidableEq

/-- The `metadata` record of a `ModernFinancialChunk`. -/
structure ChunkMetadata where
  chunkType : SectionType
  speaker : Option String := none
  sectionTitle : String
  confidence : ℚ
  position : Nat
  documentId : String
  companyName : Option String := none
  reportType : Option String := none
  deriving DecidableEq

/-- `ModernFinancialChunk` (pdfService.ts lines 135-151). -/
structure ModernFinancialChunk where
  id : Nat
  parentId : Option Nat := none
  level : ChunkLevel
  content : String
  embedding : Option (List ℚ) := none
  metadata : ChunkMetadata
  deriving DecidableEq

/-- The document-level metadata handed to `processDocument`. -/
structure DocMetadata where
  companyName : Option String := none
  reportType : Option String := none
  filename : Option String := none
  deriving DecidableEq

/-- The inner loop of `createHierarchicalChunks` over the child documents of
one parent (pdfService.ts lines 377-396): `j` is the child position, `n` the
uuid counter. -/
def buildChildChunks (sec : DocSection) (documentId : String) (meta : DocMetadata)
    (parentUuid : Nat) : List String → Nat → Nat → List ModernFinancialChunk
  | [], _, _ => []
  | cd :: rest, j, n =>
    { id := n, parentId := some parentUuid, level := .child, content := cd,
      metadata := { chunkType := sec.type, speaker := sec.speaker,
                    sectionTitle := extractSectionTitle cd,
                    confidence := calculateContentConfidence cd sec.type,
                    position := j, documentId := documentId,
                    companyName := meta.companyName,
                    reportType := meta.reportType } } ::
      buildChildChunks sec documentId meta parentUuid rest (j + 1) (n + 1)

/-- The parent chunk built for the `i`-th parent document with uuid `n`
(pdfService.ts lines 357-371). -/
def mkParentChunk (sec : DocSection) (documentId : String) (meta : DocMetadata)
    (pd : String) (i n : Nat) : ModernFinancialChunk :=
  { id := n, parentId := none, level := .parent, content := pd,
    metadata := { chunkType := sec.type, speaker := sec.speaker,
                  sectionTitle := extractSectionTitle pd,
                  confidence := calculateContentConfidence pd sec.type,
                  position := i, documentId := documentId,
                  companyName := meta.companyName,
                  reportType := meta.reportType } }

/-- One iteration of the outer loop of `createHierarchicalChunks`
(pdfService.ts lines 352-397): the parent chunk is pushed first, then all its
children (whose `parentId` is the parent's fresh uuid `n`). -/
def buildBlock (childSplit : String → List String) (sec : DocSection)
    (documentId : String) (meta : DocMetadata) (pd : String) (i n : Nat) :
    List ModernFinancialChunk :=
  mkParentChunk sec documentId meta pd i n ::
    buildChildChunks sec documentId meta n (childSplit pd) 0 (n + 1)

/-- The outer loop of `createHierarchicalChunks` over the parent documents:
one block per parent document, with `i` the parent position and `n` the uuid
counter (each chunk of a block consumed exactly one uuid). -/
def buildParentBlocks (childSplit : String → List String) (sec : DocSection)
    (documentId : String) (meta : DocMetadata) :
    List String → Nat → Nat → List ModernFinancialChunk
  | [], _, _ => []
  | pd :: rest, i, n =>
    buildBlock childSplit sec documentId meta pd i n ++
      buildParentBlocks childSplit sec documentId meta rest (i + 1)
        (n + (buildBlock childSplit sec documentId meta pd i n).length)

/-- `createHierarchicalChunks` (pdfService.ts lines 342-400) for one section. -/
def createHierarchicalChunks (parentSplit childSplit : String → List String)
    (sec : DocSection) (documentId : String) (meta : DocMetadata) (n : Nat) :
    List ModernFinancialChunk :=
  buildParentBlocks childSplit sec documentId meta (parentSplit sec.content) 0 n

/-- The section loop of `processDocument` (pdfService.ts lines 225-232):
concatenates the chunks of each detected section, threading the uuid counter
(each produced chunk consumed exactly one uuid). -/
def sectionLoop (parentSplit childSplit : String → List String)
    (documentId : String) (meta : DocMetadata) :
    List DocSection → Nat → List ModernFinancialChunk
  | [], _ => []
  | s :: rest, n =>
    let cs := createHierarchicalChunks parentSplit childSplit s documentId meta n
    cs ++ sectionLoop parentSplit childSplit documentId meta rest (n + cs.length)

/-- `processDocument` steps 1-2 (pdfService.ts lines 207-239): structure
detection followed by hierarchical chunking. -/
def processDocumentChunks (parentSplit childSplit : String → List String)
    (content documentId : String) (meta : DocMetadata) (n0 : Nat) :
    List ModernFinancialChunk :=
  sectionLoop parentSplit childSplit documentId meta
    (detectDocumentStructure content) n0

/-- The texts handed to the embedding interface by `generateEmbeddings`
(pdfService.ts line 467: `const contents = chunks.map(chunk => chunk.content)`)
— the bare chunk contents. -/
def generateEmbeddingsInputs (chunks : List ModernFinancialChunk) : List String :=
  chunks.map (fun c => c.content)

/-- `generateEmbeddings` (pdfService.ts lines 464-475): embeds each chunk's
bare content; `embedFn` models `embeddings.embedDocuments` element-wise. -/
def generateEmbeddings (embedFn : String → List ℚ)
    (chunks : List ModernFinancialChunk) : List ModernFinancialChunk :=
  chunks.map (fun c => { c with embedding := some (embedFn c.content) })

/-- `processDocument` (pdfService.ts lines 207-239): structure detection,
hierarchical chunking, then embedding generation over all chunks. -/
def processDocument (parentSplit childSplit : String → List String)
    (embedFn : String → List ℚ) (content documentId : String)
    (meta : DocMetadata) (n0 : Nat) : List ModernFinancialChunk :=
  generateEmbeddings embedFn
    (processDocumentChunks parentSplit childSplit content documentId meta n0)

/-- Claim C3's produced-sequence invariant, stated through projections of
`List.get?`: whenever position `j` holds a child-level chunk, some strictly
earlier position `i` holds a parent-level chunk whose id is the child's
`parentId` and whose `documentId` agrees with the child's. -/
def ChildrenLinkBack (l : List ModernFinancialChunk) : Prop :=
  ∀ j : Nat, ((l[j]? : Option ModernFinancialChunk).map (fun c => c.level)) = some .child →
    ∃ i : Nat, i < j ∧ ((l[i]? : Option ModernFinancialChunk).map (fun c => c.level)) = some .parent ∧
      ((l[j]? : Option ModernFinancialChunk).bind (fun c => c.parentId)) =
        ((l[i]? : Option ModernFinancialChunk).map (fun c => c.id)) ∧
      ((l[i]? : Option ModernFinancialChunk).map (fun c => c.metadata.documentId)) =
        ((l[j]? : Option ModernFinancialChunk).map (fun c => c.metadata.documentId))

/-- Claim C3's parent-side invariant: a parent-level chunk carries no
`parentId`. -/
def ParentsHaveNoParent (l : List ModernFinancialChunk) : Prop :=
  ∀ c ∈ l, c.level = .parent → c.parentId = none

/-- Level/`parentId` correspondence on a produced chunk sequence. -/
def LevelsMatchLinks (l : List ModernFinancialChunk) : Prop :=
  ∀ c ∈ l, (c.level = .parent ∧ c.parentId = none) ∨
    (c.level = .child ∧ (c.parentId).isSome)

/-- The candidate-processing core of `ModernRagService.search` (pdfService.ts
lines 526-642).  The two awaited collaborators are injected as outcomes: the
embedding call (`embedQuery`) and the store fetch (`searchChunks`, called with
the rewritten-query embedding, the low RPC threshold `0.01` and the 4×
over-fetch count).  A thrown error in either is caught by the surrounding
`try`/`catch`, which returns `[]`; zero candidates also return `[]`
immediately.  Otherwise the two filter stages run and the list is truncated to
`maxResults` (the per-element conversion to `ModernSearchResult` is a record
re-labelling that keeps the list as is). -/
def searchRun (msqrt : ℚ → ℚ) (beta : Option ℚ) (maxResults : Nat)
    (embedOutcome : Except String (List ℚ))
    (fetchOutcome : List ℚ → ℚ → Nat → Except String (List SupabaseResult)) :
    List SupabaseResult :=
  match embedOutcome with
  | .error _ => []
  | .ok queryEmbedding =>
    match fetchOutcome queryEmbedding (0.01 : ℚ) (maxResults * 4) with
    | .error _ => []
    | .ok fetched =>
      let sorted := sortBySimilarityDesc fetched
      if sorted.isEmpty then []
      else
        let afterRelative := relativeCutoff sorted
        let afterStatistical := statisticalFilter msqrt beta afterRelative
        afterStatistical.take maxResults

/-- String tag of a section type, as stored on legacy chunks. -/
def SectionType.toTag : SectionType → String
  | .transcript => "transcript"
  | .financialMetrics => "financial_metrics"
  | .narrative => "narrative"
  | .table => "table"

end ModernRag

namespace FinanceRag

/-! ## `FinanceRAGService` — fallback structured-data extraction
(financeRagService.ts lines 608-711) -/

/-- A JS `number` that is either a real (rational at our inputs) value or
`NaN` (`parseFloat` of a digit-free capture). -/
inductive JsNumber where
  | nan
  | val (q : ℚ)
  deriving DecidableEq

/-- Decimal digits to a natural number. -/
def digitsToNat (ds : List Char) : Nat :=
  ds.foldl (fun n c => n * 10 + (c.toNat - '0'.toNat)) 0

/-- JS `parseFloat` on the comma-stripped capture of
`[\d,]+(?:\.\d+)?` (so the input is `digits* ('.' digits+)?`). -/
def parseJsFloat (cs : List Char) : JsNumber :=
  let intPart := cs.takeWhile digitChar
  match cs.drop intPart.length with
  | '.' :: fr =>
    let frac := fr.takeWhile digitChar
    if intPart.isEmpty && frac.isEmpty then .nan
    else .val ((digitsToNat intPart : ℚ) + (digitsToNat frac : ℚ) / (10 ^ frac.length))
  | _ => if intPart.isEmpty then .nan else .val (digitsToNat intPart)

/-- The unit alternation `(million|billion|m|b)`, alternatives in written
order. -/
def unitPat : Pat String :=
  altPat [mapPat (fun _ => "million") (litPat "million"),
          mapPat (fun _ => "billion") (litPat "billion"),
          mapPat (fun _ => "m") (litPat "m"),
          mapPat (fun _ => "b") (litPat "b")]

/-- The number capture `([\d,]+(?:\.\d+)?)`. -/
def numberGroupPat : Pat (List Char) :=
  bindPat (many1Pat (fun c => digitChar c || c = ',')) (fun d =>
    bindPat (optPat (bindPat (litPat ".") (fun _ => many1Pat digitChar))) (fun fr =>
      purePat (d ++ (match fr with | some ds => '.' :: ds | none => []))))

/-- Pattern 1 (financeRagService.ts line 684):
`{keyword}[:\s]+(?:of\s+)?\$?([\d,]+(?:\.\d+)?)\s*(million|billion|m|b)?`. -/
def finPat1 (keyword : String) : Pat (List Char × Option String) :=
  bindPat (litPat keyword) (fun _ =>
    bindPat (many1Pat (fun c => c = ':' || jsWhitespace c)) (fun _ =>
      bindPat (optPat (bindPat (litPat "of") (fun _ => many1Pat jsWhitespace))) (fun _ =>
        bindPat (optPat (litPat "$")) (fun _ =>
          bindPat numberGroupPat (fun num =>
            bindPat (manyPat jsWhitespace) (fun _ =>
              bindPat (optPat unitPat) (fun u => purePat (num, u))))))))

/-- Pattern 2 (financeRagService.ts line 686):
`\$([\d,]+(?:\.\d+)?)\s*(million|billion|m|b)?\s+(?:in\s+)?{keyword}`. -/
def finPat2 (keyword : String) : Pat (List Char × Option String) :=
  bindPat (litPat "$") (fun _ =>
    bindPat numberGroupPat (fun num =>
      bindPat (manyPat jsWhitespace) (fun _ =>
        bindPat (optPat unitPat) (fun u =>
          bindPat (many1Pat jsWhitespace) (fun _ =>
            bindPat (optPat (bindPat (litPat "in") (fun _ => many1Pat jsWhitespace))) (fun _ =>
              bindPat (litPat keyword) (fun _ => purePat (num, u))))))))

/-- Pattern 3 (financeRagService.ts line 688):
`{keyword}\s+(?:was|were|of)\s+\$?([\d,]+(?:\.\d+)?)\s*(million|billion|m|b)?`. -/
def finPat3 (keyword : String) : Pat (List Char × Option String) :=
  bindPat (litPat keyword) (fun _ =>
    bindPat (many1Pat jsWhitespace) (fun _ =>
      bindPat (altPat [litPat "was", litPat "were", litPat "of"]) (fun _ =>
        bindPat (many1Pat jsWhitespace) (fun _ =>
          bindPat (optPat (litPat "$")) (fun _ =>
            bindPat numberGroupPat (fun num =>
              bindPat (manyPat jsWhitespace) (fun _ =>
                bindPat (optPat unitPat) (fun u => purePat (num, u)))))))))

/-- Pattern 4 (financeRagService.ts line 690):
`{keyword}[^\d]*\(?([\d,]+(?:\.\d+)?)\)?\s*(million|billion|m|b)?`. -/
def finPat4 (keyword : String) : Pat (List Char × Option String) :=
  bindPat (litPat keyword) (fun _ =>
    bindPat (manyPat (fun c => !digitChar c)) (fun _ =>
      bindPat (optPat (litPat "(")) (fun _ =>
        bindPat numberGroupPat (fun num =>
          bindPat (optPat (litPat ")")) (fun _ =>
            bindPat (manyPat jsWhitespace) (fun _ =>
              bindPat (optPat unitPat) (fun u => purePat (num, u))))))))

/-- The four layered patterns tried for one keyword, in source order. -/
def patternsFor (keyword : String) : List (Pat (List Char × Option String)) :=
  [finPat1 keyword, finPat2 keyword, finPat3 keyword, finPat4 keyword]

/-- First pattern that matches anywhere in the text (the inner `for` loop of
`extractFinancialNumber`). -/
def firstPatternHit : List (Pat (List Char × Option String)) → List Char →
    Option (List Char × Option String)
  | [], _ => none
  | p :: ps, text =>
    match firstMatch p text with
    | some r => some r
    | none => firstPatternHit ps text

/-- The unit normalization of `extractFinancialNumber` (financeRagService.ts
lines 697-703): `million`/`m` scale by 1e6, `billion`/`b` by 1e9. -/
def applyUnit (u : Option String) : JsNumber → JsNumber
  | .nan => .nan
  | .val q =>
    if u = some "million" || u = some "m" then .val (q * 1000000)
    else if u = some "billion" || u = some "b" then .val (q * 1000000000)
    else .val q

/-- The outer keyword loop of `extractFinancialNumber`. -/
def extractLoop : List String → List Char → Option JsNumber
  | [], _ => none
  | kw :: rest, text =>
    match firstPatternHit (patternsFor kw) text with
    | some (num, u) =>
      some (applyUnit u (parseJsFloat (num.filter (fun c => !(c = ',')))))
    | none => extractLoop rest text

/-- `extractFinancialNumber` (financeRagService.ts lines 680-711): first
keyword, first pattern, leftmost match; commas stripped from the capture, unit
normalized; `null` (here `none`) when nothing matches. -/
def extractFinancialNumber (text : String) (keywords : List String) : Option JsNumber :=
  extractLoop keywords text.toList

/-- The `financialMetrics` object of the fallback record. -/
structure FallbackFinancialMetrics where
  revenue : Option JsNumber
  netIncome : Option JsNumber
  eps : Option JsNumber
  grossProfit : Option JsNumber
  operatingIncome : Option JsNumber
  freeCashFlow : Option JsNumber
  deriving DecidableEq

/-- The `financialMetrics` object built by `createFallbackStructuredData`
(financeRagService.ts lines 608-675): the document text is lowercased once and
each metric is extracted with its source keyword list.  The company-name
heuristics and `keyHighlights` of the same function are not consulted by any
claim and are not embedded. -/
def fallbackFinancialMetrics (content : String) : FallbackFinancialMetrics :=
  let text := jsToLower content
  { revenue := extractFinancialNumber text
      ["revenue", "sales", "total revenue", "product revenue", "total product revenue"],
    netIncome := extractFinancialNumber text
      ["net income", "profit", "earnings", "net loss", "loss"],
    eps := extractFinancialNumber text
      ["eps", "earnings per share", "diluted eps", "basic eps"],
    grossProfit := extractFinancialNumber text ["gross profit", "gross margin"],
    operatingIncome := extractFinancialNumber text
      ["operating income", "operating profit", "operating loss"],
    freeCashFlow := extractFinancialNumber text ["free cash flow", "fcf", "cash flow"] }

/-! ## Legacy chunks and the embedding-text builder -/

/-- `estimateTokens` (financeRagService.ts lines 956-958):
`Math.ceil(text.length / 4)`. -/
def estimateTokens (text : String) : Nat := (text.length + 3) / 4

/-- `FinancialDocumentChunk`, restricted to the fields the embedded operations
read or write. -/
structure FinancialDocumentChunk where
  id : Nat
  documentId : String
  parentChunkId : Option Nat := none
  chunkLevel : Nat
  chunkOrder : Nat
  chunkType : String
  title : String
  content : String
  tokenCount : Nat
  sectionType : Option String := none
  companyName : Option String := none
  reportType : Option String := none
  fiscalPeriod : Option String := none
  fiscalYear : Option Nat := none
  quarter : Option Nat := none
  currency : Option String := none
  metrics : Option (List String) := none
  financialStatements : Option (List String) := none
  embedding : Option (List ℚ) := none
  deriving DecidableEq

/-- `createFinancialEmbeddingText` (financeRagService.ts lines 858-868):
content first, then the present metadata tags, pipe-joined.  JS truthiness
makes an empty string count as absent. -/
def createFinancialEmbeddingText (chunk : FinancialDocumentChunk) : String :=
  let parts := [chunk.content]
    ++ (if strTruthy chunk.companyName then
          ["Company: " ++ chunk.companyName.getD ""] else [])
    ++ (if strTruthy chunk.reportType then
          ["Report Type: " ++ chunk.reportType.getD ""] else [])
    ++ (if strTruthy chunk.fiscalPeriod then
          ["Period: " ++ chunk.fiscalPeriod.getD ""] else [])
    ++ (match chunk.metrics with
        | some ms => if ms.length ≠ 0 then ["Metrics: " ++ jsJoin ", " ms] else []
        | none => [])
    ++ (if strTruthy chunk.sectionType then
          ["Section: " ++ chunk.sectionType.getD ""] else [])
  jsJoin " | " parts

/-- `convertModernToLegacyChunks` for one chunk (financeRagService.ts lines
264-280). -/
def convertModernToLegacyChunk (index : Nat) (m : ModernRag.ModernFinancialChunk) :
    FinancialDocumentChunk :=
  { id := m.id,
    documentId := m.metadata.documentId,
    parentChunkId := m.parentId,
    chunkLevel := if m.level = .parent then 1 else 2,
    chunkOrder := m.metadata.position,
    chunkType := m.metadata.chunkType.toTag,
    title := if m.metadata.sectionTitle = "" then "Chunk " ++ toString (index + 1)
             else m.metadata.sectionTitle,
    content := m.content,
    tokenCount := estimateTokens m.content,
    sectionType := some m.metadata.chunkType.toTag,
    companyName := m.metadata.companyName,
    reportType := m.metadata.reportType,
    embedding := m.embedding }

/-- The mapping loop of `convertModernToLegacyChunks`, carrying the array
index. -/
def convertLoop : Nat → List ModernRag.ModernFinancialChunk → List FinancialDocumentChunk
  | _, [] => []
  | i, m :: rest => convertModernToLegacyChunk i m :: convertLoop (i + 1) rest

/-- `convertModernToLegacyChunks` (financeRagService.ts lines 264-280). -/
def convertModernToLegacyChunks (ms : List ModernRag.ModernFinancialChunk) :
    List FinancialDocumentChunk :=
  convertLoop 0 ms

end FinanceRag

namespace SupabaseSvc

/-! ## `src/services/supabaseService.ts` — the chunk store adapter -/

/-- A row of the `financial_document_chunks` table (`DatabaseChunk`). -/
structure DatabaseChunk where
  id : Nat
  document_id : String
  parent_chunk_id : Option Nat := none
  chunk_level : Nat
  chunk_order : Nat
  chunk_type : String
  title : String
  content : String
  token_count : Nat
  section_type : Option String := none
  company_name : Option String := none
  report_type : Option String := none
  fiscal_period : Option String := none
  fiscal_year : Option Nat := none
  quarter : Option Nat := none
  currency : Option String := none
  metrics : Option (List String) := none
  financial_statements : Option (List String) := none
  embedding : Option (List ℚ) := none
  deriving DecidableEq

/-- The per-chunk row construction of `storeChunks` (supabaseService.ts lines
706-729). -/
def toDatabaseChunk (c : FinanceRag.FinancialDocumentChunk) : DatabaseChunk :=
  { id := c.id,
    document_id := c.documentId,
    parent_chunk_id := c.parentChunkId,
    chunk_level := c.chunkLevel,
    chunk_order := c.chunkOrder,
    chunk_type := c.chunkType,
    title := c.title,
    content := c.content,
    token_count := c.tokenCount,
    section_type := c.sectionType,
    company_name := c.companyName,
    report_type := c.reportType,
    fiscal_period := c.fiscalPeriod,
    fiscal_year := c.fiscalYear,
    quarter := c.quarter,
    currency := c.currency,
    metrics := c.metrics,
    financial_statements := c.financialStatements,
    embedding := c.embedding }

/-- Outcome of a `storeChunks` run: the table contents, the insert batches that
were actually attempted (in order), and whether the call succeeded (`ok =
false` models the function throwing). -/
structure StoreChunksResult where
  table : List DatabaseChunk
  attemptedBatches : List (List DatabaseChunk)
  ok : Bool

/-- `storeChunks` (supabaseService.ts lines 694-778): partition into parents
(`parentChunkId` absent) and children (present), insert the parent batch,
abort on parent failure, otherwise insert the child batch; a child failure
leaves the inserted parents in place and still throws.  The two awaited
`insert` calls are injected as outcomes (`parentInsertOk` / `childInsertOk`);
a failed batch insert stores nothing (one SQL statement), and an empty batch
is skipped (`if (parentDbChunks.length > 0)` guards). -/
def storeChunksRun (table : List DatabaseChunk)
    (chunks : List FinanceRag.FinancialDocumentChunk)
    (parentInsertOk childInsertOk : Bool) : StoreChunksResult :=
  let dbChunks := chunks.map toDatabaseChunk
  let parentDbChunks := dbChunks.filter (fun c => c.parent_chunk_id.isNone)
  let childDbChunks := dbChunks.filter (fun c => c.parent_chunk_id.isSome)
  if parentDbChunks.isEmpty then
    if childDbChunks.isEmpty then ⟨table, [], true⟩
    else if childInsertOk then ⟨table ++ childDbChunks, [childDbChunks], true⟩
    else ⟨table, [childDbChunks], false⟩
  else if !parentInsertOk then ⟨table, [parentDbChunks], false⟩
  else
    let table1 := table ++ parentDbChunks
    if childDbChunks.isEmpty then ⟨table1, [parentDbChunks], true⟩
    else if childInsertOk then
      ⟨table1 ++ childDbChunks, [parentDbChunks, childDbChunks], true⟩
    else ⟨table1, [parentDbChunks, childDbChunks], false⟩

end SupabaseSvc

/-! ## Spec-side refinement targets (claim C2)

These two definitions follow the words of the spec ("compute mean `μ` and
sample standard deviation `σ` (σ = 0 if only one survivor) … drop survivors
below `μ + β·σ`") and are compared against the code-side `statisticalFilter`. -/

/-- Modelled from the spec: the survivors' mean similarity. -/
def specMean (sims : List ℚ) : ℚ := sims.sum / (sims.length : ℚ)

/-- Modelled from the spec: the survivors' sample standard deviation, with
`σ = 0` when there is only one survivor; `msqrt` is the same square-root
oracle the code uses. -/
def specSampleStdev (msqrt : ℚ → ℚ) (sims : List ℚ) : ℚ :=
  if sims.length = 1 then 0
  else msqrt ((sims.map (fun s => (s - specMean sims) ^ 2)).sum / ((sims.length : ℚ) - 1))

/-! ## Concrete scenario inputs from the claims -/

/-- Claim C1 / spec Scenario D: candidates scored `[0.82, 0.81, 0.40, 0.39, 0.10]`. -/
def scenarioCandidates : List ModernRag.SupabaseResult :=
  [⟨"c1", 0.82⟩, ⟨"c2", 0.81⟩, ⟨"c3", 0.40⟩, ⟨"c4", 0.39⟩, ⟨"c5", 0.10⟩]

/-- Claim C5 / spec Scenario B: three speaker turns, no financial-metric or
table lines. -/
def scenarioTranscript : String :=
  "Operator: Good morning, and welcome to the call.\nJane Doe: Thank you, operator.\nOperator: Our first question comes from the line."

/-- Claim C6 / spec Scenario A: document text with a revenue line and a net
loss line. -/
def scenarioFallbackDoc : String := "Revenue: $734.2 million\nNet Loss: $194.3 million"

/-- Claim C7: a modern chunk carrying a company name (and other metadata). -/
def scenarioModernChunk : ModernRag.ModernFinancialChunk :=
  { id := 0, parentId := none, level := .parent, content := "Revenue grew.",
    metadata := { chunkType := .narrative, sectionTitle := "Revenue grew",
                  confidence := 0.5, position := 0, documentId := "doc-1",
                  companyName := some "Acme Corp", reportType := some "earnings" } }

/-- Claim C4 / spec Scenario E: a parent chunk for the store scenario. -/
def scenarioParentChunk (i : Nat) : FinanceRag.FinancialDocumentChunk :=
  { id := i, documentId := "doc-4", parentChunkId := none, chunkLevel := 1,
    chunkOrder := i, chunkType := "narrative", title := "P", content := "parent",
    tokenCount := 2 }

/-- Claim C4 / spec Scenario E: a child chunk referencing parent `p`. -/
def scenarioChildChunk (i p : Nat) : FinanceRag.FinancialDocumentChunk :=
  { id := i, documentId := "doc-4", parentChunkId := some p, chunkLevel := 2,
    chunkOrder := i, chunkType := "narrative", title := "C", content := "child",
    tokenCount := 2 }

/-- Claim C4 / spec Scenario E: 2 parents followed by 5 children referencing
them. -/
def scenarioStoreChunks : List FinanceRag.FinancialDocumentChunk :=
  [scenarioParentChunk 0, scenarioParentChunk 1,
   scenarioChildChunk 2 0, scenarioChildChunk 3 0, scenarioChildChunk 4 0,
   scenarioChildChunk 5 1, scenarioChildChunk 6 1]

/-- Claim C3: a small concrete processing run (identity splitters, trivial
embedder) — one narrative section giving one parent chunk and one child. -/
def scenarioProcessed : List ModernRag.ModernFinancialChunk :=
  ModernRag.processDocument (fun s => [s]) (fun s => [s]) (fun _ => [])
    "Hello world" "doc-w" {} 0

/-! # Theorems settling the claims -/

/-- C5: for a document whose text consists of the 3 speaker-turn lines
`Operator:`, `Jane Doe:`, `Operator:` (no financial-metric or table lines),
the structure detector returns exactly 3 spans, all of type `transcript`, and
the 2nd span's speaker is `Jane Doe`. -/
theorem detect_three_speaker_turns :
    (ModernRag.detectDocumentStructure scenarioTranscript).length = 3 ∧
    (∀ s ∈ ModernRag.detectDocumentStructure scenarioTranscript, s.type = .transcript) ∧
    ((ModernRag.detectDocumentStructure scenarioTranscript).get? 1).map (fun s => s.speaker) =
      some (some "Jane Doe") :=
  ⟨by decide, by decide, by decide⟩

/-- C1: for every non-empty candidate list sorted by descending similarity
with best (head) score `b`, the relative-cutoff stage keeps exactly the
candidates with similarity `≥ b * 0.5`. -/
theorem relativeCutoff_keeps_exactly_half_of_best
    (rs : List ModernRag.SupabaseResult) (best : ModernRag.SupabaseResult)
    (hbest : rs.head? = some best)
    (hsorted : List.Sorted (fun a b => b.similarity ≤ a.similarity) rs)
    (r : ModernRag.SupabaseResult) :
    r ∈ ModernRag.relativeCutoff rs ↔
      r ∈ rs ∧ best.similarity * 0.5 ≤ r.similarity := by
  cases rs with
  | nil => simp at hbest
  | cons r0 rest =>
    have h : r0 = best := by simpa using hbest
    subst h
    simp [ModernRag.relativeCutoff, List.mem_filter]

/-- C1 witness: on the claim's list `[0.82, 0.81, 0.40, 0.39, 0.10]` the
survivors are exactly the candidates scored 0.82 and 0.81 (cutoff 0.41
excludes 0.40), and the theorem instantiates there. -/
theorem relativeCutoff_keeps_exactly_half_of_best_witness :
    ModernRag.relativeCutoff scenarioCandidates = [⟨"c1", 0.82⟩, ⟨"c2", 0.81⟩] ∧
    ((⟨"c3", (0.40 : ℚ)⟩ : ModernRag.SupabaseResult) ∈ ModernRag.relativeCutoff scenarioCandidates ↔
      (⟨"c3", (0.40 : ℚ)⟩ : ModernRag.SupabaseResult) ∈ scenarioCandidates ∧
        (0.82 : ℚ) * 0.5 ≤ 0.40) := by
  constructor
  · simp only [ModernRag.relativeCutoff, scenarioCandidates, List.filter]
    norm_num
  · exact relativeCutoff_keeps_exactly_half_of_best scenarioCandidates ⟨"c1", 0.82⟩ rfl
      (by norm_num [scenarioCandidates, List.Sorted, List.pairwise_cons]) ⟨"c3", 0.40⟩

/-- C10: at the modern `searchFinancialDocuments` entry point, the strictness
forwarded to the adaptive filter is `min(similarityThreshold, 0.05)` when the
caller supplied one and `0.05` otherwise; it is always defined (so stage 2 is
never skipped for this entry point) and never exceeds 0.05. -/
theorem forwardedSimilarityThreshold_caps (t : Option ℚ) :
    FinanceRag.forwardedSimilarityThreshold none = some 0.05 ∧
    (∀ s : ℚ, FinanceRag.forwardedSimilarityThreshold (some s) = some (min s 0.05)) ∧
    (∀ b : ℚ, FinanceRag.forwardedSimilarityThreshold t = some b → b ≤ 0.05) ∧
    FinanceRag.forwardedSimilarityThreshold t ≠ none := by
  refine ⟨rfl, fun s => rfl, ?_, ?_⟩
  · intro b hb
    cases t with
    | none =>
      simp only [FinanceRag.forwardedSimilarityThreshold, Option.some.injEq] at hb
      subst hb; norm_num
    | some s =>
      simp only [FinanceRag.forwardedSimilarityThreshold, Option.some.injEq] at hb
      subst hb; exact min_le_right _ _
  · cases t <;> simp [FinanceRag.forwardedSimilarityThreshold]

/-- C10 witness: a caller-supplied `similarityThreshold` of 0.04 is forwarded
capped below 0.05 and stage 2 stays enabled. -/
theorem forwardedSimilarityThreshold_caps_witness :
    min (0.04 : ℚ) 0.05 ≤ 0.05 ∧ FinanceRag.forwardedSimilarityThreshold (some 0.04) ≠ none :=
  ⟨(forwardedSimilarityThreshold_caps (some 0.04)).2.2.1 (min 0.04 0.05) rfl,
   (forwardedSimilarityThreshold_caps (some 0.04)).2.2.2⟩

/-- C9: the search core fails closed — an error from the embedding call or the
store fetch is caught and yields `[]`, and a zero-candidate fetch returns `[]`
immediately. -/
theorem searchRun_fails_closed (msqrt : ℚ → ℚ) (beta : Option ℚ) (k : Nat)
    (e : String) (emb : List ℚ)
    (fetch : List ℚ → ℚ → Nat → Except String (List ModernRag.SupabaseResult)) :
    ModernRag.searchRun msqrt beta k (.error e) fetch = [] ∧
    (fetch emb 0.01 (k * 4) = .error e → ModernRag.searchRun msqrt beta k (.ok emb) fetch = []) ∧
    (fetch emb 0.01 (k * 4) = .ok [] → ModernRag.searchRun msqrt beta k (.ok emb) fetch = []) := by
  refine ⟨rfl, ?_, ?_⟩ <;> intro h <;>
    simp [ModernRag.searchRun, h, ModernRag.sortBySimilarityDesc]

/-- C9 witness: a search against an empty corpus returns the empty list. -/
theorem searchRun_fails_closed_witness :
    ModernRag.searchRun (fun q => q) (some 0.05) 5 (.ok [1, 0])
      (fun _ _ _ => .ok []) = [] :=
  (searchRun_fails_closed (fun q => q) (some 0.05) 5 "err" [1, 0] (fun _ _ _ => .ok [])).2.2 rfl

/-- C8 counterexample: the FinanceRAG rewriter returns the 30-character query
`what was total revenue in 2024` unchanged — no framing prefix is prepended to
queries of length ≥ 20, contradicting the claim. -/
theorem financeRewrite_long_query_unchanged :
    FinanceRag.rewriteQueryForEmbedding "what was total revenue in 2024" =
      "what was total revenue in 2024" ∧
    ("what was total revenue in 2024" : String).length = 30 ∧
    FinanceRag.rewriteQueryForEmbedding "what was total revenue in 2024" ≠
      "Regarding the uploaded financial documents, " ++ "what was total revenue in 2024" :=
  ⟨by decide, by decide, by decide⟩

/-- Helper for C2: the code's standard-deviation expression (sample, `n - 1`
denominator, 0 for a single survivor) equals the spec-side `specSampleStdev`. -/
theorem stdev_eq (msqrt : ℚ → ℚ) (sims : List ℚ) (h : sims ≠ []) :
    (if 1 < sims.length then
        msqrt ((sims.map (fun s => (s - sims.sum / (sims.length : ℚ)) ^ 2)).sum /
          ((sims.length : ℚ) - 1))
      else 0) = specSampleStdev msqrt sims := by
  have h0 : sims.length ≠ 0 := by simpa using h
  by_cases h1 : sims.length = 1
  · rw [specSampleStdev, if_pos h1, if_neg (by omega)]
  · rw [specSampleStdev, if_neg h1, if_pos (by omega)]
    rfl

/-- C2: with a supplied strictness `β` and a non-empty survivor list, stage 2
keeps exactly the survivors with similarity `≥ μ + β·σ` (μ the mean, σ the
sample standard deviation, σ = 0 for a single survivor); without `β` stage 2
is skipped and the survivors pass through unchanged. -/
theorem statisticalFilter_matches_spec (msqrt : ℚ → ℚ) (beta : ℚ)
    (rs : List ModernRag.SupabaseResult) (hne : rs ≠ []) :
    ModernRag.statisticalFilter msqrt (some beta) rs =
      rs.filter (fun r => decide (specMean (rs.map (fun x => x.similarity)) +
        beta * specSampleStdev msqrt (rs.map (fun x => x.similarity)) ≤ r.similarity)) ∧
    (∀ rs' : List ModernRag.SupabaseResult, ModernRag.statisticalFilter msqrt none rs' = rs') := by
  refine ⟨?_, fun rs' => rfl⟩
  have hlen : 0 < rs.length := List.length_pos.mpr hne
  have hne' : rs.map (fun x => x.similarity) ≠ [] := by
    simpa [List.map_eq_nil_iff] using hne
  simp only [ModernRag.statisticalFilter]
  rw [if_pos hlen]
  refine List.filter_congr (fun r _ => ?_)
  have harg :
      (rs.map (fun x => x.similarity)).sum / ((rs.map (fun x => x.similarity)).length : ℚ) +
        beta * (if 1 < (rs.map (fun x => x.similarity)).length then
          msqrt (((rs.map (fun x => x.similarity)).map
              (fun s => (s - (rs.map (fun x => x.similarity)).sum /
                ((rs.map (fun x => x.similarity)).length : ℚ)) ^ 2)).sum /
            (((rs.map (fun x => x.similarity)).length : ℚ) - 1))
        else 0) =
      specMean (rs.map (fun x => x.similarity)) +
        beta * specSampleStdev msqrt (rs.map (fun x => x.similarity)) := by
    rw [stdev_eq msqrt _ hne']
    rfl
  exact congrArg (fun x => decide (x ≤ r.similarity)) harg

/-- C2 witness: a single survivor of similarity 1/2 with β = 1 — the threshold
is the mean itself (σ = 0), so the survivor passes. -/
theorem statisticalFilter_matches_spec_witness :
    ModernRag.statisticalFilter (fun q => q) (some 1) [⟨"a", (1:ℚ)/2⟩] =
      [(⟨"a", (1:ℚ)/2⟩ : ModernRag.SupabaseResult)].filter
        (fun r => decide (specMean ([(⟨"a", (1:ℚ)/2⟩ : ModernRag.SupabaseResult)].map (fun x => x.similarity)) +
          1 * specSampleStdev (fun q => q) ([(⟨"a", (1:ℚ)/2⟩ : ModernRag.SupabaseResult)].map (fun x => x.similarity)) ≤ r.similarity)) ∧
    ModernRag.statisticalFilter (fun q => q) (some 1) [⟨"a", (1:ℚ)/2⟩] = [⟨"a", (1:ℚ)/2⟩] :=
  ⟨(statisticalFilter_matches_spec (fun q => q) 1 [⟨"a", 1/2⟩] (List.cons_ne_nil _ _)).1,
   by norm_num [ModernRag.statisticalFilter, List.filter, specMean, specSampleStdev]⟩

/-- C8 (amended): the ModernRag rewriter frames every query — short non-empty
queries get `About {company} {period} filing (doc id: {id}), answer this: {q}`
(or the generic `Regarding the uploaded financial documents, answer this:`),
queries of length ≥ 20 get the same base without the `answer this:` wording —
while the FinanceRAG rewriter returns queries of length ≥ 20 unchanged. -/
theorem rewriteQuery_framing (q company period docId : String)
    (hc : company ≠ "") (hp : period ≠ "") (hd : docId ≠ "") :
    (0 < q.length → q.length < 20 →
      ModernRag.rewriteQueryForEmbedding q
          (some { company := some company, period := some period, documentId := some docId }) =
        "About " ++ company ++ " " ++ period ++ " filing (doc id: " ++ docId ++
          "), answer this: " ++ q ∧
      ModernRag.rewriteQueryForEmbedding q none =
        "Regarding the uploaded financial documents, answer this: " ++ q) ∧
    (20 ≤ q.length →
      ModernRag.rewriteQueryForEmbedding q
          (some { company := some company, period := some period, documentId := some docId }) =
        "About " ++ company ++ " " ++ period ++ " filing (doc id: " ++ docId ++ "), " ++ q ∧
      ModernRag.rewriteQueryForEmbedding q none =
        "Regarding the uploaded financial documents, " ++ q) ∧
    (20 ≤ q.length → FinanceRag.rewriteQueryForEmbedding q = q) := by
  refine ⟨fun h2 h1 => ⟨?_, ?_⟩, fun h20 => ⟨?_, ?_⟩, fun h20 => ?_⟩
  · simp [ModernRag.rewriteQueryForEmbedding, strTruthy, jsOrStr, hc, hp, hd, h1, h2,
      String.append_assoc]
  · simp [ModernRag.rewriteQueryForEmbedding, strTruthy, jsOrStr, h1, h2, String.append_assoc]
  · simp [ModernRag.rewriteQueryForEmbedding, strTruthy, jsOrStr, hc, hp, hd,
      Nat.not_lt.mpr h20, String.append_assoc]
  · simp [ModernRag.rewriteQueryForEmbedding, strTruthy, jsOrStr, Nat.not_lt.mpr h20,
      String.append_assoc]
  · simp [FinanceRag.rewriteQueryForEmbedding, Nat.not_lt.mpr h20]

/-- C8 witness: a 15-character query gets the company/period/doc-id framing
with `answer this:`, and a 30-character query passes the FinanceRAG rewriter
unchanged. -/
theorem rewriteQuery_framing_witness :
    ModernRag.rewriteQueryForEmbedding "free cash flow?"
        (some { company := some "Acme", period := some "Q3 2024", documentId := some "d1" }) =
      "About " ++ "Acme" ++ " " ++ "Q3 2024" ++ " filing (doc id: " ++ "d1" ++
        "), answer this: " ++ "free cash flow?" ∧
    FinanceRag.rewriteQueryForEmbedding "what was total revenue in 2024" =
      "what was total revenue in 2024" :=
  ⟨((rewriteQuery_framing "free cash flow?" "Acme" "Q3 2024" "d1" (by decide) (by decide)
      (by decide)).1 (by decide) (by decide)).1,
   (rewriteQuery_framing "what was total revenue in 2024" "Acme" "Q3 2024" "d1" (by decide)
      (by decide) (by decide)).2.2 (by decide)⟩

/-- C6 counterexample: on the Scenario A text the fallback extractor's net
income field is `+194300000` — the magnitude of the `Net Loss: $194.3 million`
match with no negative sign applied, so the claimed "negative-signed net
income field" is false. -/
theorem fallback_net_loss_sign :
    (FinanceRag.fallbackFinancialMetrics scenarioFallbackDoc).netIncome =
      some (.val 194300000) ∧
    ¬ ∃ q : ℚ, q < 0 ∧
      (FinanceRag.fallbackFinancialMetrics scenarioFallbackDoc).netIncome = some (.val q) := by
  have hni : (FinanceRag.fallbackFinancialMetrics scenarioFallbackDoc).netIncome
      = some (.val (((FinanceRag.digitsToNat ("194".toList) : ℚ) +
          (FinanceRag.digitsToNat ("3".toList) : ℚ) / 10 ^ ("3".toList.length)) * 1000000)) := rfl
  have h194 : FinanceRag.digitsToNat ("194".toList) = 194 := by decide
  have h3 : FinanceRag.digitsToNat ("3".toList) = 3 := by decide
  have hlen : ("3".toList.length) = 1 := by decide
  rw [hni, h194, h3, hlen]
  constructor
  · simp only [Option.some.injEq, FinanceRag.JsNumber.val.injEq]
    push_cast
    norm_num
  · rintro ⟨q, hq, heq⟩
    simp only [Option.some.injEq, FinanceRag.JsNumber.val.injEq] at heq
    rw [← heq] at hq
    push_cast at hq
    norm_num at hq

/-- C6 (amended): the fallback extractor yields `revenue = 734200000` (the
`million` unit normalized as ×1e6) and `netIncome = 194300000`, a positive
value taken from the `net loss` keyword match (the code extracts the magnitude
and applies no sign). -/
theorem fallback_scenario_values :
    (FinanceRag.fallbackFinancialMetrics scenarioFallbackDoc).revenue =
      some (.val 734200000) ∧
    (FinanceRag.fallbackFinancialMetrics scenarioFallbackDoc).netIncome =
      some (.val 194300000) := by
  have hrev : (FinanceRag.fallbackFinancialMetrics scenarioFallbackDoc).revenue
      = some (.val (((FinanceRag.digitsToNat ("734".toList) : ℚ) +
          (FinanceRag.digitsToNat ("2".toList) : ℚ) / 10 ^ ("2".toList.length)) * 1000000)) := rfl
  have hni : (FinanceRag.fallbackFinancialMetrics scenarioFallbackDoc).netIncome
      = some (.val (((FinanceRag.digitsToNat ("194".toList) : ℚ) +
          (FinanceRag.digitsToNat ("3".toList) : ℚ) / 10 ^ ("3".toList.length)) * 1000000)) := rfl
  rw [hrev, hni]
  have h734 : FinanceRag.digitsToNat ("734".toList) = 734 := by decide
  have h2 : FinanceRag.digitsToNat ("2".toList) = 2 := by decide
  have h194 : FinanceRag.digitsToNat ("194".toList) = 194 := by decide
  have h3 : FinanceRag.digitsToNat ("3".toList) = 3 := by decide
  have hl2 : ("2".toList.length) = 1 := by decide
  have hl3 : ("3".toList.length) = 1 := by decide
  rw [h734, h2, h194, h3, hl2, hl3]
  constructor <;>
    · simp only [Option.some.injEq, FinanceRag.JsNumber.val.injEq]
      push_cast
      norm_num

/-- C7 counterexample: the modern path hands the embedding interface the bare
chunk content even though the chunk has a company name, so the embedded text
is not the pipe-separated enrichment. -/
theorem modern_embedding_input_bare :
    ModernRag.generateEmbeddingsInputs [scenarioModernChunk] = ["Revenue grew."] ∧
    scenarioModernChunk.metadata.companyName = some "Acme Corp" ∧
    ("Revenue grew." : String) ≠ "Revenue grew." ++ " | Company: Acme Corp" :=
  ⟨rfl, rfl, by decide⟩

/-- C7 (amended): the legacy embedding path builds exactly the pipe-separated
enrichment `content | Company: X | Report Type: X | Period: X | Metrics: a, b
| Section: X` from the present fields, while the modern path embeds every
chunk's bare content. -/
theorem embeddingText_enrichment (chunk : FinanceRag.FinancialDocumentChunk)
    (cn rt fp st : String) (ms : List String)
    (hcn : chunk.companyName = some cn) (hcn' : cn ≠ "")
    (hrt : chunk.reportType = some rt) (hrt' : rt ≠ "")
    (hfp : chunk.fiscalPeriod = some fp) (hfp' : fp ≠ "")
    (hms : chunk.metrics = some ms) (hms' : ms ≠ [])
    (hst : chunk.sectionType = some st) (hst' : st ≠ "") :
    FinanceRag.createFinancialEmbeddingText chunk =
      jsJoin " | " [chunk.content, "Company: " ++ cn, "Report Type: " ++ rt,
        "Period: " ++ fp, "Metrics: " ++ jsJoin ", " ms, "Section: " ++ st] ∧
    (∀ chunks : List ModernRag.ModernFinancialChunk,
      ModernRag.generateEmbeddingsInputs chunks = chunks.map (fun c => c.content)) := by
  refine ⟨?_, fun chunks => rfl⟩
  simp [FinanceRag.createFinancialEmbeddingText, hcn, hrt, hfp, hms, hst,
    strTruthy, hcn', hrt', hfp', hst', hms']

/-- C7 witness: the enrichment evaluated on a fully-tagged legacy chunk. -/
theorem embeddingText_enrichment_witness :
    FinanceRag.createFinancialEmbeddingText
      { id := 0, documentId := "doc-1", chunkLevel := 1, chunkOrder := 0,
        chunkType := "narrative", title := "T", content := "Revenue grew.",
        tokenCount := 4, sectionType := some "summary",
        companyName := some "Acme Corp", reportType := some "earnings",
        fiscalPeriod := some "Q3 2024", metrics := some ["revenue", "eps"] } =
      jsJoin " | " ["Revenue grew.", "Company: " ++ "Acme Corp",
        "Report Type: " ++ "earnings", "Period: " ++ "Q3 2024",
        "Metrics: " ++ jsJoin ", " ["revenue", "eps"], "Section: " ++ "summary"] :=
  (embeddingText_enrichment _ "Acme Corp" "earnings" "Q3 2024" "summary" ["revenue", "eps"]
    rfl (by decide) rfl (by decide) rfl (by decide) rfl (by decide) rfl (by decide)).1

namespace ModernRag

/-- Every chunk built by the child loop is child-level, points at the parent
uuid it was built under, and carries the document id. -/
theorem buildChildChunks_fields (sec : DocSection) (documentId : String)
    (meta : DocMetadata) (pid : Nat) :
    ∀ (cds : List String) (j n : Nat), ∀ c ∈ buildChildChunks sec documentId meta pid cds j n,
      c.level = .child ∧ c.parentId = some pid ∧ c.metadata.documentId = documentId := by
  intro cds
  induction cds with
  | nil => intro j n c hc; simp [buildChildChunks] at hc
  | cons cd rest ih =>
    intro j n c hc
    rcases List.mem_cons.mp hc with h | h
    · subst h; exact ⟨rfl, rfl, rfl⟩
    · exact ih _ _ c h

/-- `ChildrenLinkBack` is closed under concatenation. -/
theorem childrenLinkBack_append {l₁ l₂ : List ModernFinancialChunk}
    (h₁ : ChildrenLinkBack l₁) (h₂ : ChildrenLinkBack l₂) :
    ChildrenLinkBack (l₁ ++ l₂) := by
  intro j hj
  rcases Option.map_eq_some'.mp hj with ⟨c, hc, hlev⟩
  by_cases hcase : j < l₁.length
  · have hc₁ : l₁[j]? = some c := by rwa [List.getElem?_append_left hcase] at hc
    have hj₁ : (l₁[j]? : Option ModernFinancialChunk).map (fun c => c.level) = some .child := by
      rw [hc₁]; simp [hlev]
    obtain ⟨i, hij, hip, hpid, hdoc⟩ := h₁ j hj₁
    have hi₁ : i < l₁.length := lt_trans hij hcase
    refine ⟨i, hij, ?_, ?_, ?_⟩
    · rw [List.getElem?_append_left hi₁]; exact hip
    · rw [List.getElem?_append_left hcase, List.getElem?_append_left hi₁]; exact hpid
    · rw [List.getElem?_append_left hi₁, List.getElem?_append_left hcase]; exact hdoc
  · push_neg at hcase
    have hc₂ : l₂[j - l₁.length]? = some c := by
      rwa [List.getElem?_append_right hcase] at hc
    have hj₂ : (l₂[j - l₁.length]? : Option ModernFinancialChunk).map (fun c => c.level) =
        some .child := by
      rw [hc₂]; simp [hlev]
    obtain ⟨i, hij, hip, hpid, hdoc⟩ := h₂ _ hj₂
    refine ⟨l₁.length + i, by omega, ?_, ?_, ?_⟩
    · rw [List.getElem?_append_right (Nat.le_add_right _ _), Nat.add_sub_cancel_left]; exact hip
    · rw [List.getElem?_append_right hcase, List.getElem?_append_right (Nat.le_add_right _ _),
        Nat.add_sub_cancel_left]; exact hpid
    · rw [List.getElem?_append_right (Nat.le_add_right _ _), Nat.add_sub_cancel_left,
        List.getElem?_append_right hcase]; exact hdoc

/-- A parent-level head followed by its own children satisfies
`ChildrenLinkBack`: the parent at position 0 witnesses every child. -/
theorem childrenLinkBack_cons_parent (p : ModernFinancialChunk)
    (children : List ModernFinancialChunk) (hp : p.level = .parent)
    (hc : ∀ c ∈ children, c.level = .child ∧ c.parentId = some p.id ∧
      c.metadata.documentId = p.metadata.documentId) :
    ChildrenLinkBack (p :: children) := by
  intro j hj
  cases j with
  | zero => simp [hp] at hj
  | succ j' =>
    rcases Option.map_eq_some'.mp hj with ⟨c, hcget, hlev⟩
    have hcget' : children[j']? = some c := by simpa using hcget
    have hmem : c ∈ children := by
      obtain ⟨hlt, hget⟩ := List.getElem?_eq_some_iff.mp hcget'
      exact hget ▸ List.getElem_mem hlt
    obtain ⟨_, hpid, hdoc⟩ := hc c hmem
    refine ⟨0, Nat.succ_pos _, ?_, ?_, ?_⟩
    · simp [hp]
    · simp [hcget', hpid]
    · simp [hcget', hdoc]

/-- One block (a parent chunk followed by its children) links back. -/
theorem childrenLinkBack_buildBlock (childSplit : String → List String)
    (sec : DocSection) (documentId : String) (meta : DocMetadata)
    (pd : String) (i n : Nat) :
    ChildrenLinkBack (buildBlock childSplit sec documentId meta pd i n) :=
  childrenLinkBack_cons_parent _ _ rfl (fun c hc =>
    (buildChildChunks_fields sec documentId meta n (childSplit pd) 0 (n + 1) c hc))

/-- The whole outer loop links back. -/
theorem childrenLinkBack_buildParentBlocks (childSplit : String → List String)
    (sec : DocSection) (documentId : String) (meta : DocMetadata) :
    ∀ (pds : List String) (i n : Nat),
      ChildrenLinkBack (buildParentBlocks childSplit sec documentId meta pds i n) := by
  intro pds
  induction pds with
  | nil => intro i n j hj; simp [buildParentBlocks] at hj
  | cons pd rest ih =>
    intro i n
    rw [buildParentBlocks]
    exact childrenLinkBack_append
      (childrenLinkBack_buildBlock childSplit sec documentId meta pd i n) (ih _ _)

/-- Level/`parentId` correspondence holds for the outer loop's output. -/
theorem levelsMatchLinks_buildParentBlocks (childSplit : String → List String)
    (sec : DocSection) (documentId : String) (meta : DocMetadata) :
    ∀ (pds : List String) (i n : Nat),
      LevelsMatchLinks (buildParentBlocks childSplit sec documentId meta pds i n) := by
  intro pds
  induction pds with
  | nil => intro i n c hc; simp [buildParentBlocks] at hc
  | cons pd rest ih =>
    intro i n c hc
    rw [buildParentBlocks] at hc
    rcases List.mem_append.mp hc with h | h
    · rcases List.mem_cons.mp h with h' | h'
      · subst h'; exact Or.inl ⟨rfl, rfl⟩
      · obtain ⟨h1, h2, _⟩ :=
          buildChildChunks_fields sec documentId meta n (childSplit pd) 0 (n + 1) c h'
        exact Or.inr ⟨h1, by simp [h2]⟩
    · exact ih _ _ c h

/-- The section loop links back. -/
theorem childrenLinkBack_sectionLoop (parentSplit childSplit : String → List String)
    (documentId : String) (meta : DocMetadata) :
    ∀ (secs : List DocSection) (n : Nat),
      ChildrenLinkBack (sectionLoop parentSplit childSplit documentId meta secs n) := by
  intro secs
  induction secs with
  | nil => intro n j hj; simp [sectionLoop] at hj
  | cons s rest ih =>
    intro n
    rw [sectionLoop]
    exact childrenLinkBack_append
      (childrenLinkBack_buildParentBlocks childSplit s documentId meta _ 0 n) (ih _)

/-- Level/`parentId` correspondence holds for the section loop's output. -/
theorem levelsMatchLinks_sectionLoop (parentSplit childSplit : String → List String)
    (documentId : String) (meta : DocMetadata) :
    ∀ (secs : List DocSection) (n : Nat),
      LevelsMatchLinks (sectionLoop parentSplit childSplit documentId meta secs n) := by
  intro secs
  induction secs with
  | nil => intro n c hc; simp [sectionLoop] at hc
  | cons s rest ih =>
    intro n c hc
    rw [sectionLoop] at hc
    rcases List.mem_append.mp hc with h | h
    · exact levelsMatchLinks_buildParentBlocks childSplit s documentId meta _ 0 n c h
    · exact ih _ c h

/-- Positional view of the embedding step: it maps each position through a
record update that only touches `embedding`. -/
theorem getElem_generateEmbeddings (f : String → List ℚ)
    (l : List ModernFinancialChunk) (k : Nat) :
    ((generateEmbeddings f l)[k]? : Option ModernFinancialChunk) =
      (l[k]? : Option ModernFinancialChunk).map
        (fun c => { c with embedding := some (f c.content) }) := by
  simp [generateEmbeddings]

/-- The embedding step preserves `ChildrenLinkBack` (it changes no id,
`parentId`, level or document id). -/
theorem childrenLinkBack_generateEmbeddings (f : String → List ℚ)
    (l : List ModernFinancialChunk) (h : ChildrenLinkBack l) :
    ChildrenLinkBack (generateEmbeddings f l) := by
  intro j hj
  rw [getElem_generateEmbeddings, Option.map_map] at hj
  obtain ⟨i, hij, hip, hpid, hdoc⟩ := h j hj
  rcases Option.map_eq_some'.mp hip with ⟨p, hpi, hplev⟩
  rcases Option.map_eq_some'.mp hj with ⟨m, hmj, _⟩
  rw [hmj] at hpid hdoc
  rw [hpi] at hip hpid hdoc
  refine ⟨i, hij, ?_, ?_, ?_⟩
  · rw [getElem_generateEmbeddings, hpi]
    simpa using hplev
  · rw [getElem_generateEmbeddings, getElem_generateEmbeddings, hpi, hmj]
    simpa using hpid
  · rw [getElem_generateEmbeddings, getElem_generateEmbeddings, hpi, hmj]
    simpa using hdoc

/-- The embedding step preserves `LevelsMatchLinks`. -/
theorem levelsMatchLinks_generateEmbeddings (f : String → List ℚ)
    (l : List ModernFinancialChunk) (h : LevelsMatchLinks l) :
    LevelsMatchLinks (generateEmbeddings f l) := by
  intro c hc
  rcases List.mem_map.mp hc with ⟨c₀, hc₀, rfl⟩
  rcases h c₀ hc₀ with ⟨h1, h2⟩ | ⟨h1, h2⟩
  · exact Or.inl ⟨h1, h2⟩
  · exact Or.inr ⟨h1, h2⟩

/-- The full `processDocument` output links back. -/
theorem childrenLinkBack_processDocument (parentSplit childSplit : String → List String)
    (embedFn : String → List ℚ) (content documentId : String)
    (meta : DocMetadata) (n0 : Nat) :
    ChildrenLinkBack (processDocument parentSplit childSplit embedFn content documentId meta n0) :=
  childrenLinkBack_generateEmbeddings _ _
    (childrenLinkBack_sectionLoop parentSplit childSplit documentId meta _ n0)

/-- The full `processDocument` output has matching levels and links. -/
theorem levelsMatchLinks_processDocument (parentSplit childSplit : String → List String)
    (embedFn : String → List ℚ) (content documentId : String)
    (meta : DocMetadata) (n0 : Nat) :
    LevelsMatchLinks (processDocument parentSplit childSplit embedFn content documentId meta n0) :=
  levelsMatchLinks_generateEmbeddings _ _
    (levelsMatchLinks_sectionLoop parentSplit childSplit documentId meta _ n0)

/-- From the positional invariants: every member chunk with a `parentId` has a
parent-level member of the same document carrying that id. -/
theorem exists_parent_of_child (M : List ModernFinancialChunk)
    (hL : ChildrenLinkBack M) (hlev : LevelsMatchLinks M)
    (m : ModernFinancialChunk) (hm : m ∈ M) (pid : Nat) (hpid : m.parentId = some pid) :
    ∃ p ∈ M, p.level = .parent ∧ p.id = pid ∧
      p.metadata.documentId = m.metadata.documentId := by
  obtain ⟨j, hj⟩ := List.get?_of_mem hm
  have hj' : M[j]? = some m := by rwa [List.get?_eq_getElem?] at hj
  have hchild : m.level = .child := by
    rcases hlev m hm with ⟨_, hnone⟩ | ⟨hch, _⟩
    · rw [hpid] at hnone; cases hnone
    · exact hch
  have hjlev : (M[j]? : Option ModernFinancialChunk).map (fun c => c.level) = some .child := by
    rw [hj']; simp [hchild]
  obtain ⟨i, _, hip, hpidEq, hdoc⟩ := hL j hjlev
  rcases Option.map_eq_some'.mp hip with ⟨p, hpi, hplev⟩
  rw [hj', hpi] at hpidEq hdoc
  simp only [Option.some_bind, Option.map_some'] at hpidEq hdoc
  refine ⟨p, ?_, hplev, ?_, ?_⟩
  · obtain ⟨hlt, hget⟩ := List.getElem?_eq_some_iff.mp hpi
    exact hget ▸ List.getElem_mem hlt
  · rw [hpid] at hpidEq
    exact (Option.some.inj hpidEq).symm
  · exact Option.some.inj hdoc

end ModernRag

namespace FinanceRag

/-- Conversion keeps every modern chunk (at some array index). -/
theorem convertLoop_mem_of_mem :
    ∀ (i : Nat) (ms : List ModernRag.ModernFinancialChunk) (m : ModernRag.ModernFinancialChunk),
      m ∈ ms → ∃ idx, convertModernToLegacyChunk idx m ∈ convertLoop i ms := by
  intro i ms
  induction ms generalizing i with
  | nil => intro m hm; cases hm
  | cons m0 rest ih =>
    intro m hm
    rcases List.mem_cons.mp hm with h | h
    · subst h; exact ⟨i, List.mem_cons_self _ _⟩
    · obtain ⟨idx, hidx⟩ := ih (i + 1) m h
      exact ⟨idx, List.mem_cons_of_mem _ hidx⟩

/-- Every converted chunk comes from a modern chunk. -/
theorem mem_convertLoop :
    ∀ (i : Nat) (ms : List ModernRag.ModernFinancialChunk) (l : FinancialDocumentChunk),
      l ∈ convertLoop i ms →
        ∃ idx m, m ∈ ms ∧ l = convertModernToLegacyChunk idx m := by
  intro i ms
  induction ms generalizing i with
  | nil => intro l hl; cases hl
  | cons m0 rest ih =>
    intro l hl
    rcases List.mem_cons.mp hl with h | h
    · exact ⟨i, m0, List.mem_cons_self _ _, h⟩
    · obtain ⟨idx, m, hm, he⟩ := ih (i + 1) l h
      exact ⟨idx, m, List.mem_cons_of_mem _ hm, he⟩

end FinanceRag

namespace SupabaseSvc

/-- When both batch inserts succeed, the table gains the whole parent batch
followed by the whole child batch. -/
theorem storeChunksRun_ok_ok_table (table : List DatabaseChunk)
    (chunks : List FinanceRag.FinancialDocumentChunk) :
    (storeChunksRun table chunks true true).table =
      table ++
        (chunks.map toDatabaseChunk).filter (fun c => c.parent_chunk_id.isNone) ++
        (chunks.map toDatabaseChunk).filter (fun c => c.parent_chunk_id.isSome) := by
  by_cases hP : ((chunks.map toDatabaseChunk).filter (fun c => c.parent_chunk_id.isNone)).isEmpty <;>
    by_cases hC : ((chunks.map toDatabaseChunk).filter (fun c => c.parent_chunk_id.isSome)).isEmpty
  · simp [storeChunksRun, hP, hC, List.isEmpty_iff.mp hP, List.isEmpty_iff.mp hC]
  · simp [storeChunksRun, hP, hC, List.isEmpty_iff.mp hP]
  · simp [storeChunksRun, hP, hC, List.isEmpty_iff.mp hC]
  · simp [storeChunksRun, hP, hC, List.append_assoc]

end SupabaseSvc

/-- C3: in the produced chunk sequence a parent-level chunk has no `parentId`
and every child-level chunk's `parentId` is the id of a same-document
parent-level chunk strictly earlier in the sequence; the store adapter inserts
the whole parent batch before any child row, and every child row's parent is
in the parent batch. -/
theorem chunk_parent_ordering
    (parentSplit childSplit : String → List String) (embedFn : String → List ℚ)
    (content documentId : String) (meta : ModernRag.DocMetadata) (n0 : Nat)
    (table : List SupabaseSvc.DatabaseChunk) :
    ModernRag.ParentsHaveNoParent
      (ModernRag.processDocument parentSplit childSplit embedFn content documentId meta n0) ∧
    ModernRag.ChildrenLinkBack
      (ModernRag.processDocument parentSplit childSplit embedFn content documentId meta n0) ∧
    (SupabaseSvc.storeChunksRun table
        (FinanceRag.convertModernToLegacyChunks
          (ModernRag.processDocument parentSplit childSplit embedFn content documentId meta n0))
        true true).table =
      table ++
        ((FinanceRag.convertModernToLegacyChunks
            (ModernRag.processDocument parentSplit childSplit embedFn content documentId meta n0)).map
          SupabaseSvc.toDatabaseChunk).filter (fun c => c.parent_chunk_id.isNone) ++
        ((FinanceRag.convertModernToLegacyChunks
            (ModernRag.processDocument parentSplit childSplit embedFn content documentId meta n0)).map
          SupabaseSvc.toDatabaseChunk).filter (fun c => c.parent_chunk_id.isSome) ∧
    ∀ c ∈ ((FinanceRag.convertModernToLegacyChunks
          (ModernRag.processDocument parentSplit childSplit embedFn content documentId meta n0)).map
        SupabaseSvc.toDatabaseChunk).filter (fun c => c.parent_chunk_id.isSome),
      ∃ p ∈ ((FinanceRag.convertModernToLegacyChunks
            (ModernRag.processDocument parentSplit childSplit embedFn content documentId meta n0)).map
          SupabaseSvc.toDatabaseChunk).filter (fun c => c.parent_chunk_id.isNone),
        c.parent_chunk_id = some p.id ∧ p.document_id = c.document_id := by
  have hCLB := ModernRag.childrenLinkBack_processDocument parentSplit childSplit embedFn
    content documentId meta n0
  have hLML := ModernRag.levelsMatchLinks_processDocument parentSplit childSplit embedFn
    content documentId meta n0
  refine ⟨?_, hCLB, SupabaseSvc.storeChunksRun_ok_ok_table _ _, ?_⟩
  · intro c hc hpar
    rcases hLML c hc with ⟨_, h⟩ | ⟨hch, _⟩
    · exact h
    · rw [hpar] at hch; simp at hch
  · intro c hcmem
    obtain ⟨hcdb, hcsome⟩ := List.mem_filter.mp hcmem
    obtain ⟨l, hlL, rfl⟩ := List.mem_map.mp hcdb
    rw [FinanceRag.convertModernToLegacyChunks] at hlL
    obtain ⟨idx, m, hmM, rfl⟩ := FinanceRag.mem_convertLoop 0 _ l hlL
    have hms : m.parentId.isSome := hcsome
    obtain ⟨pid, hpid⟩ := Option.isSome_iff_exists.mp hms
    obtain ⟨p, hpM, hplev, hpidEq, hpdoc⟩ :=
      ModernRag.exists_parent_of_child _ hCLB hLML m hmM pid hpid
    have hpnone : p.parentId = none := by
      rcases hLML p hpM with ⟨_, h⟩ | ⟨hch, _⟩
      · exact h
      · rw [hplev] at hch; simp at hch
    obtain ⟨idx2, hidx2⟩ := FinanceRag.convertLoop_mem_of_mem 0 _ p hpM
    refine ⟨SupabaseSvc.toDatabaseChunk (FinanceRag.convertModernToLegacyChunk idx2 p),
      List.mem_filter.mpr ⟨List.mem_map_of_mem _ (by
        rw [FinanceRag.convertModernToLegacyChunks]; exact hidx2), ?_⟩, ?_, ?_⟩
    · simp [SupabaseSvc.toDatabaseChunk, FinanceRag.convertModernToLegacyChunk, hpnone]
    · simp [SupabaseSvc.toDatabaseChunk, FinanceRag.convertModernToLegacyChunk, hpid, hpidEq]
    · simp [SupabaseSvc.toDatabaseChunk, FinanceRag.convertModernToLegacyChunk, hpdoc]

/-- C3 witness: in the concrete run (one parent, one child) the child at
position 1 links back to the parent at position 0 of the same document. -/
theorem chunk_parent_ordering_witness :
    ∃ i : Nat, i < 1 ∧
      ((scenarioProcessed[i]? : Option ModernRag.ModernFinancialChunk).map
        (fun c => c.level)) = some .parent ∧
      ((scenarioProcessed[1]? : Option ModernRag.ModernFinancialChunk).bind
        (fun c => c.parentId)) =
        ((scenarioProcessed[i]? : Option ModernRag.ModernFinancialChunk).map
          (fun c => c.id)) ∧
      ((scenarioProcessed[i]? : Option ModernRag.ModernFinancialChunk).map
        (fun c => c.metadata.documentId)) =
        ((scenarioProcessed[1]? : Option ModernRag.ModernFinancialChunk).map
          (fun c => c.metadata.documentId)) :=
  (chunk_parent_ordering (fun s => [s]) (fun s => [s]) (fun _ => [])
    "Hello world" "doc-w" {} 0 []).2.1 1 (by decide)

/-- C4: if the parent batch insert fails, the operation reports an error, the
table is unchanged, and the child batch is never attempted; if the child batch
fails after the parents succeeded, the parents remain stored and the error is
still reported. -/
theorem storeChunks_failure_semantics (table : List SupabaseSvc.DatabaseChunk)
    (chunks : List FinanceRag.FinancialDocumentChunk) :
    ((chunks.map SupabaseSvc.toDatabaseChunk).filter (fun c => c.parent_chunk_id.isNone) ≠ [] →
      ∀ childInsertOk : Bool,
        (SupabaseSvc.storeChunksRun table chunks false childInsertOk).table = table ∧
        (SupabaseSvc.storeChunksRun table chunks false childInsertOk).ok = false ∧
        (SupabaseSvc.storeChunksRun table chunks false childInsertOk).attemptedBatches =
          [(chunks.map SupabaseSvc.toDatabaseChunk).filter (fun c => c.parent_chunk_id.isNone)]) ∧
    ((chunks.map SupabaseSvc.toDatabaseChunk).filter (fun c => c.parent_chunk_id.isSome) ≠ [] →
      (SupabaseSvc.storeChunksRun table chunks true false).table =
        table ++ (chunks.map SupabaseSvc.toDatabaseChunk).filter (fun c => c.parent_chunk_id.isNone) ∧
      (SupabaseSvc.storeChunksRun table chunks true false).ok = false) := by
  constructor
  · intro hP cOk
    have hP' : ((chunks.map SupabaseSvc.toDatabaseChunk).filter
        (fun c => c.parent_chunk_id.isNone)).isEmpty = false := by
      simpa [List.isEmpty_iff] using hP
    refine ⟨?_, ?_, ?_⟩ <;> simp [SupabaseSvc.storeChunksRun, hP']
  · intro hC
    have hC' : ((chunks.map SupabaseSvc.toDatabaseChunk).filter
        (fun c => c.parent_chunk_id.isSome)).isEmpty = false := by
      simpa [List.isEmpty_iff] using hC
    by_cases hP : ((chunks.map SupabaseSvc.toDatabaseChunk).filter
        (fun c => c.parent_chunk_id.isNone)).isEmpty
    · have hP0 := List.isEmpty_iff.mp hP
      refine ⟨?_, ?_⟩ <;> simp [SupabaseSvc.storeChunksRun, hP, hC', hP0]
    · refine ⟨?_, ?_⟩ <;> simp [SupabaseSvc.storeChunksRun, hP, hC']

/-- C4 witness / Scenario E: storing 2 parents then 5 children with a
simulated child-insert failure leaves exactly the 2 parent rows stored and
reports failure. -/
theorem storeChunks_failure_semantics_witness :
    (SupabaseSvc.storeChunksRun [] scenarioStoreChunks true false).table =
      [SupabaseSvc.toDatabaseChunk (scenarioParentChunk 0),
       SupabaseSvc.toDatabaseChunk (scenarioParentChunk 1)] ∧
    (SupabaseSvc.storeChunksRun [] scenarioStoreChunks true false).ok = false := by
  have h := (storeChunks_failure_semantics [] scenarioStoreChunks).2 (by decide)
  exact ⟨by rw [h.1]; decide, h.2⟩

end KBChatbot
